import Mathlib

/-!
Verification of the issue-mirror synchronizer (package issuemirror and its
mirror command) against its natural-language specification.

The development shallowly embeds the Go source:

* writeDiskJSON (the write-if-newer / versioning primitive) over an explicit
  one-file filesystem state whose fallible primitives (json.MarshalIndent,
  os.MkdirAll, ioutil.WriteFile, os.Chtimes) are driven by a success oracle;
* the field-normalization pass (cleanIssue, cleanComment, cleanUser,
  cleanLabel, cleanIssueMilestone, cleanReactions, cleanReactionsPtr,
  cleanStr) as pure functions returning the cleaned-verdict and the new value;
* the on-disk store enumeration (NumComments, the walk cores of ForeachIssue
  and ForeachIssueComment) over explicit directory listings, with file names
  as Lean strings manipulated through their character lists;
* the sync orchestration of func main: the page loop over the issues feed,
  updateComments, and the per-issue body (reclean pass plus comment-count
  reconciliation), recorded as a list of observable actions.

Go machine integers are modelled as Nat / Int; timestamps (time.Time) as Nat
with 0 playing the role of the zero time.Time; Go nil pointers as none.
-/

/- ===================== writeDiskJSON ===================== -/

deriving instance DecidableEq for Except

/-- The state of the one file writeDiskJSON touches: its byte content and its
filesystem modification timestamp (time.Time modelled as Nat, 0 = zero time). -/
structure DiskFile where
  content : List Nat
  modTime : Nat
  deriving DecidableEq, Repr

/-- Failure oracle for the fallible primitives writeDiskJSON calls, in call
order: json.MarshalIndent, os.MkdirAll, ioutil.WriteFile, os.Chtimes.
Marshal and MkdirAll failures do not touch the target file.  A WriteFile
failure is refined to its real modes: WriteFile opens the file with
O_WRONLY, O_CREATE and O_TRUNC, so either the open itself fails (openOk =
false) and the prior file survives, or the open succeeds, the file is
truncated, and written bytes of the new serialization land before the
failing write or close (written = 0 models truncation with nothing
written).  A Chtimes failure happens after the full content is on disk. -/
structure IOOracle where
  marshalOk : Bool
  mkdirOk : Bool
  writeOk : Bool
  openOk : Bool
  written : Nat
  chtimesOk : Bool
  deriving DecidableEq, Repr

/-- The oracle on which every primitive succeeds. -/
def allOk : IOOracle := ⟨true, true, true, true, 0, true⟩

/-- Outcome of writeDiskJSON: the Go return value (error, or the wrote flag),
the final state of the target file, and whether os.MkdirAll ran (creating any
missing parent directories). -/
structure WriteResult where
  res : Except Unit Bool
  fs : Option DiskFile
  mkdirRan : Bool
  deriving DecidableEq, Repr

/-- The trailing-newline fixup of writeDiskJSON:
if j[len(j)-1] != the newline byte, append one (newline = byte 10). -/
def appendNewline (j : List Nat) : List Nat :=
  if j.getLast? = some 10 then j else j ++ [10]

/-- The write path of writeDiskJSON after the version dispatch (source lines
334-352): marshal, fix the newline, MkdirAll, WriteFile, Chtimes.  marshaled
stands for the output of json.MarshalIndent(v, "", tab); now is the wall
clock stamped on the file by the truncating write before Chtimes reassigns
modTime.  A failing WriteFile whose O_TRUNC open succeeded destroys the
prior content, leaving the written-bytes prefix of the new serialization. -/
def writeDiskJSONBody (o : IOOracle) (now : Nat) (fs : Option DiskFile)
    (modTime : Nat) (marshaled : List Nat) : WriteResult :=
  if o.marshalOk = false then ⟨Except.error (), fs, false⟩
  else
    let j := appendNewline marshaled
    if o.mkdirOk = false then ⟨Except.error (), fs, false⟩
    else if o.writeOk = false then
      if o.openOk = false then ⟨Except.error (), fs, true⟩
      else ⟨Except.error (), some ⟨j.take o.written, now⟩, true⟩
    else if o.chtimesOk = false then ⟨Except.error (), some ⟨j, now⟩, true⟩
    else ⟨Except.ok true, some ⟨j, modTime⟩, true⟩

/-- writeDiskJSON(file, modTime, v) from the mirror command.  fs is the
current state of the target file (none = does not exist; os.Stat fails
exactly then).  modTime = 0 models modTime.IsZero(): require the file to
exist and reuse its current modification time.  Otherwise, if the file
exists and its modification time equals modTime, report (false, nil) without
touching anything; else fall through to the write path. -/
def writeDiskJSON (o : IOOracle) (now : Nat) (fs : Option DiskFile)
    (modTime : Nat) (marshaled : List Nat) : WriteResult :=
  if modTime = 0 then
    match fs with
    | none => ⟨Except.error (), none, false⟩
    | some fi => writeDiskJSONBody o now fs fi.modTime marshaled
  else
    match fs with
    | some fi =>
        if fi.modTime = modTime then ⟨Except.ok false, fs, false⟩
        else writeDiskJSONBody o now fs modTime marshaled
    | none => writeDiskJSONBody o now fs modTime marshaled

/- ===================== Normalizer ===================== -/

/-- cleanStr(pps, cleaned): if the pointed-to string pointer is non-nil, nil
it and set the cleaned flag; returns the new pointer value and flag. -/
def cleanStr (s : Option String) (cleaned : Bool) : Option String × Bool :=
  match s with
  | some _ => (none, true)
  | none => (none, cleaned)

/-- The inline clearing pattern used on milestone fields:
if the pointer is non-nil, nil it and set cleaned. -/
def clearOpt {α : Type} (v : Option α) (cleaned : Bool) : Option α × Bool :=
  match v with
  | some _ => (none, true)
  | none => (none, cleaned)

/-- github.Reactions: the total count, self URL and the six per-kind
counters (Go *int modelled as Option Int, *string as Option String). -/
structure Reactions where
  totalCount : Option Int
  url : Option String
  plusOne : Option Int
  minusOne : Option Int
  laugh : Option Int
  confused : Option Int
  heart : Option Int
  hooray : Option Int
  deriving DecidableEq, Repr

/-- The per-counter zeroing inside cleanReactions:
if *v != nil and **v == 0 then *v = nil (without touching cleaned). -/
def zeroToNone (v : Option Int) : Option Int :=
  match v with
  | some 0 => none
  | _ => v

/-- cleanReactions(r): clear the URL via cleanStr (which is the only step
that sets the cleaned flag in the source), then nil every zero-valued
per-kind counter. -/
def cleanReactions (r : Reactions) : Bool × Reactions :=
  let pu := cleanStr r.url false
  (pu.2,
    { totalCount := r.totalCount, url := pu.1,
      plusOne := zeroToNone r.plusOne, minusOne := zeroToNone r.minusOne,
      laugh := zeroToNone r.laugh, confused := zeroToNone r.confused,
      heart := zeroToNone r.heart, hooray := zeroToNone r.hooray })

/-- cleanReactionsPtr(rp): nil pointer is left alone; a summary whose
TotalCount is nil or 0 is dropped entirely (cleaned = true); otherwise
delegate to cleanReactions. -/
def cleanReactionsPtr (rp : Option Reactions) : Bool × Option Reactions :=
  match rp with
  | none => (false, none)
  | some r =>
      if r.totalCount = none ∨ r.totalCount = some 0 then (true, none)
      else
        let p := cleanReactions r
        (p.1, some p.2)

/-- github.User, restricted to the thirteen URL-ish fields cleanUser clears. -/
structure User where
  avatarURL : Option String
  htmlURL : Option String
  gravatarID : Option String
  url : Option String
  eventsURL : Option String
  followingURL : Option String
  followersURL : Option String
  gistsURL : Option String
  organizationsURL : Option String
  receivedEventsURL : Option String
  reposURL : Option String
  starredURL : Option String
  subscriptionsURL : Option String
  deriving DecidableEq, Repr

/-- cleanUser(u): nil user is left alone; otherwise run cleanStr over the
thirteen URL fields in the order of the source's field-pointer slice. -/
def cleanUser (u : Option User) : Bool × Option User :=
  match u with
  | none => (false, none)
  | some u =>
      let p01 := cleanStr u.avatarURL false
      let p02 := cleanStr u.htmlURL p01.2
      let p03 := cleanStr u.gravatarID p02.2
      let p04 := cleanStr u.url p03.2
      let p05 := cleanStr u.eventsURL p04.2
      let p06 := cleanStr u.followingURL p05.2
      let p07 := cleanStr u.followersURL p06.2
      let p08 := cleanStr u.gistsURL p07.2
      let p09 := cleanStr u.organizationsURL p08.2
      let p10 := cleanStr u.receivedEventsURL p09.2
      let p11 := cleanStr u.reposURL p10.2
      let p12 := cleanStr u.starredURL p11.2
      let p13 := cleanStr u.subscriptionsURL p12.2
      (p13.2, some
        { avatarURL := p01.1, htmlURL := p02.1, gravatarID := p03.1,
          url := p04.1, eventsURL := p05.1, followingURL := p06.1,
          followersURL := p07.1, gistsURL := p08.1,
          organizationsURL := p09.1, receivedEventsURL := p10.1,
          reposURL := p11.1, starredURL := p12.1, subscriptionsURL := p13.1 })

/-- github.Label, restricted to the two fields cleanLabel clears. -/
structure Label where
  url : Option String
  color : Option String
  deriving DecidableEq, Repr

/-- cleanLabel(l): clear the self URL and the color-lookup URL. -/
def cleanLabel (l : Label) : Bool × Label :=
  let p1 := cleanStr l.url false
  let p2 := cleanStr l.color p1.2
  (p2.2, { url := p1.1, color := p2.1 })

/-- github.Milestone, restricted to the fields cleanIssueMilestone touches
(timestamps modelled as Nat, counters as Int). -/
structure Milestone where
  url : Option String
  htmlURL : Option String
  labelsURL : Option String
  state : Option String
  description : Option String
  creator : Option User
  createdAt : Option Nat
  updatedAt : Option Nat
  closedAt : Option Nat
  dueOn : Option Nat
  openIssues : Option Int
  closedIssues : Option Int
  deriving DecidableEq, Repr

/-- cleanIssueMilestone(m): nil milestone is left alone; otherwise clear the
URL / state / description strings, the creator, the four timestamps (the
source checks ClosedAt twice; the second check is a no-op and is kept here)
and the two issue counters. -/
def cleanIssueMilestone (m : Option Milestone) : Bool × Option Milestone :=
  match m with
  | none => (false, none)
  | some m =>
      let p1 := cleanStr m.url false
      let p2 := cleanStr m.htmlURL p1.2
      let p3 := cleanStr m.labelsURL p2.2
      let p4 := cleanStr m.state p3.2
      let p5 := cleanStr m.description p4.2
      let p6 := clearOpt m.creator p5.2
      let p7 := clearOpt m.createdAt p6.2
      let p8 := clearOpt m.updatedAt p7.2
      let p9 := clearOpt m.closedAt p8.2
      let p9b := clearOpt p9.1 p9.2
      let p10 := clearOpt m.dueOn p9b.2
      let p11 := clearOpt m.openIssues p10.2
      let p12 := clearOpt m.closedIssues p11.2
      (p12.2, some
        { url := p1.1, htmlURL := p2.1, labelsURL := p3.1, state := p4.1,
          description := p5.1, creator := p6.1, createdAt := p7.1,
          updatedAt := p8.1, closedAt := p9b.1, dueOn := p10.1,
          openIssues := p11.1, closedIssues := p12.1 })

/-- github.Issue, restricted to the fields the mirror command reads or
cleans: identity, the two self URLs, user, labels, reactions, assignee,
the assignees pointer list, milestone, the declared comment count
(Go *int, nil-checked by the orchestrator) and the update version. -/
structure Issue where
  number : Nat
  url : Option String
  htmlURL : Option String
  user : Option User
  labels : List Label
  reactions : Option Reactions
  assignee : Option User
  assignees : List (Option User)
  milestone : Option Milestone
  comments : Option Nat
  updatedAt : Nat
  deriving DecidableEq, Repr

/-- cleanIssue(is), in source order: user, URL, HTMLURL, each label,
reactions, assignee, the singleton-assignees collapse (a length-1 assignees
list is dropped entirely and counts as a change), each remaining assignee,
milestone. -/
def cleanIssue (is : Issue) : Bool × Issue :=
  let pu := cleanUser is.user
  let p1 := cleanStr is.url pu.1
  let p2 := cleanStr is.htmlURL p1.2
  let pl := is.labels.map cleanLabel
  let c3 := p2.2 || pl.any (fun p => p.1)
  let pr := cleanReactionsPtr is.reactions
  let c4 := c3 || pr.1
  let pa := cleanUser is.assignee
  let c5 := c4 || pa.1
  let asg := if is.assignees.length = 1 then ([] : List (Option User)) else is.assignees
  let c6 := if is.assignees.length = 1 then true else c5
  let pas := asg.map cleanUser
  let c7 := c6 || pas.any (fun p => p.1)
  let pm := cleanIssueMilestone is.milestone
  let c8 := c7 || pm.1
  (c8,
    { number := is.number, url := p1.1, htmlURL := p2.1, user := pu.2,
      labels := pl.map (fun p => p.2), reactions := pr.2, assignee := pa.2,
      assignees := pas.map (fun p => p.2), milestone := pm.2,
      comments := is.comments, updatedAt := is.updatedAt })

/-- github.IssueComment, restricted to the fields the mirror command reads
or cleans: identity, user, reactions, the three URLs and the update
version. -/
structure IssueComment where
  id : Nat
  user : Option User
  reactions : Option Reactions
  url : Option String
  htmlURL : Option String
  issueURL : Option String
  updatedAt : Nat
  deriving DecidableEq, Repr

/-- cleanComment(c), in source order: user, reactions, URL, HTMLURL,
IssueURL.  (The source's nil-receiver guard is unreachable at its call
sites, which always pass a record just decoded or fetched.) -/
def cleanComment (c : IssueComment) : Bool × IssueComment :=
  let pu := cleanUser c.user
  let pr := cleanReactionsPtr c.reactions
  let c2 := pu.1 || pr.1
  let p3 := cleanStr c.url c2
  let p4 := cleanStr c.htmlURL p3.2
  let p5 := cleanStr c.issueURL p4.2
  (p5.2,
    { id := c.id, user := pu.2, reactions := pr.2, url := p3.1,
      htmlURL := p4.1, issueURL := p5.1, updatedAt := c.updatedAt })

/- ===================== Record store enumeration ===================== -/

/-- The digit run of strconv.Atoi: a non-empty all-digit character list read
as a Nat. -/
def digitsNat (cs : List Char) : Option Nat :=
  if cs ≠ [] ∧ cs.all Char.isDigit then
    some (cs.foldl (fun acc c => acc * 10 + (c.toNat - 48)) 0)
  else none

/-- strconv.Atoi on a character list: an optional sign followed by digits
(overflow is idealized away; Go ints are modelled as unbounded). -/
def atoiInt (cs : List Char) : Option Int :=
  match cs with
  | '+' :: rest => (digitsNat rest).map (fun n => (n : Int))
  | '-' :: rest => (digitsNat rest).map (fun n => -(n : Int))
  | _ => (digitsNat cs).map (fun n => (n : Int))

/-- One entry of a directory listing, as seen by filepath.Walk /
Readdirnames: its base name and whether it is a directory. -/
inductive CEntry where
  | file (name : String)
  | dir (name : String)
  deriving DecidableEq, Repr

/-- Root.NumComments(issueNum): commentsDir is the listing of the
issue's .comments directory (none = the directory does not exist) and
issueFileExists models os.Stat on the issue's own JSON file.  A missing
directory yields 0 when the issue file exists, else the stat error;
otherwise the count of ALL directory entry names. -/
def numComments (commentsDir : Option (List CEntry)) (issueFileExists : Bool) :
    Except String Nat :=
  match commentsDir with
  | none =>
      if issueFileExists then Except.ok 0
      else Except.error "stat issue json: not exist"
  | some entries => Except.ok entries.length

/-- The TrimSuffix-then-TrimPrefix identity parse inside
ForeachIssueComment's walk: strip ".json" (5 chars) and "comment-"
(8 chars) and run Atoi on what is left. -/
def commentIdOfName (name : String) : Option Int :=
  atoiInt ((name.data.take (name.data.length - 5)).drop 8)

/-- The walk body of Root.ForeachIssueComment over the entries of the
comments directory, in walk order: any subdirectory is an error; a file
named comment-*.json has its identity parsed (a parse failure is an error);
any other file is passed over. -/
def collectCommentIds : List CEntry → Except String (List Int)
  | [] => Except.ok []
  | CEntry.dir name :: _ => Except.error ("unexpected directory: " ++ name)
  | CEntry.file name :: rest =>
      if "comment-".data.isPrefixOf name.data && ".json".data.isSuffixOf name.data then
        match commentIdOfName name with
        | some id => Except.map (fun ids => id :: ids) (collectCommentIds rest)
        | none => Except.error ("unexpected non-numeric json file " ++ name)
      else collectCommentIds rest

/-- Insertion into an ascending list, for sort.Ints. -/
def insertAsc (x : Int) : List Int → List Int
  | [] => [x]
  | y :: ys => if x ≤ y then x :: y :: ys else y :: insertAsc x ys

/-- sort.Ints as insertion sort. -/
def sortAsc : List Int → List Int
  | [] => []
  | x :: xs => insertAsc x (sortAsc xs)

/-- Root.ForeachIssueComment, reduced to the sequence of comment identities
it visits: a missing comments directory is caught by the os.IsNotExist check
and yields the empty sequence; otherwise the walk collects the identities
and sort.Ints orders them before the per-comment callbacks run. -/
def foreachIssueCommentIds (commentsDir : Option (List CEntry)) :
    Except String (List Int) :=
  match commentsDir with
  | none => Except.ok []
  | some entries => Except.map sortAsc (collectCommentIds entries)

/-- A directory entry is a file named comment-*.json with a parseable
numeric identity. -/
def matchesCommentName : CEntry → Bool
  | CEntry.dir _ => false
  | CEntry.file name =>
      ("comment-".data.isPrefixOf name.data && ".json".data.isSuffixOf name.data)
        && (commentIdOfName name).isSome

/-- A node of the on-disk issues tree for filepath.Walk, with the listing of
a directory given in walk (lexical) order. -/
inductive FsNode where
  | file (name : String)
  | dir (name : String) (children : List FsNode)

/-- The walk body of Root.ForeachIssue over the children of the issues
directory, fuelled to keep the recursion structural (the walk itself always
terminates; enough fuel makes the model total).  pre is the relative path of
the enclosing directory including its trailing slash, so pre ++ name is
filepath.Rel(issueDir, path).  A directory whose relative path is longer
than 3 is answered with filepath.SkipDir: it is pruned, not an error.  A
regular *.json file must have a numeric base name (Atoi failure is an
error); other files are passed over. -/
def walkIssuesList (fuel : Nat) (pre : String) (es : List FsNode) :
    Option (Except String (List Int)) :=
  match fuel, es with
  | _, [] => some (Except.ok [])
  | 0, _ => none
  | Nat.succ fuel, FsNode.file name :: rest =>
      if ".json".data.isSuffixOf name.data then
        match atoiInt (name.data.take (name.data.length - 5)) with
        | some n =>
            match walkIssuesList fuel pre rest with
            | some (Except.ok ns) => some (Except.ok (n :: ns))
            | r => r
        | none =>
            some (Except.error ("unexpected non-numeric json file " ++ pre ++ name))
      else walkIssuesList fuel pre rest
  | Nat.succ fuel, FsNode.dir name children :: rest =>
      if (pre ++ name).length > 3 then walkIssuesList fuel pre rest
      else
        match walkIssuesList fuel (pre ++ name ++ "/") children with
        | some (Except.ok ns) =>
            match walkIssuesList fuel pre rest with
            | some (Except.ok ms) => some (Except.ok (ns ++ ms))
            | r => r
        | r => r

/- ===================== Sync orchestrator ===================== -/

/-- github.ListOptions as passed by the mirror command. -/
structure ListOptions where
  page : Nat
  perPage : Nat
  deriving DecidableEq, Repr

/-- github.IssueListByRepoOptions as passed by the mirror command. -/
structure IssueListByRepoOptions where
  state : String
  sort : String
  direction : String
  listOptions : ListOptions
  deriving DecidableEq, Repr

/-- The exact options func main passes to Issues.ListByRepo for a given page:
all states, sorted by update recency descending, 100 per page. -/
def issueListOpts (page : Nat) : IssueListByRepoOptions :=
  ⟨"all", "updated", "desc", ⟨page, 100⟩⟩

/-- The top-level page loop of func main, abstracted over the per-record
write outcomes: feed page is the list of writeDiskJSON wrote-results for the
records of that page.  Mirrors page := 1; keepGoing := true; for keepGoing:
fetch the page, keepGoing = false, set keepGoing if any record wrote,
page++.  Returns the pages fetched in order (none if the fuel ran out). -/
def issuePageLoop (feed : Nat → List Bool) : Nat → Nat → Option (List Nat)
  | 0, _ => none
  | Nat.succ fuel, page =>
      if (feed page).any (fun b => b) then
        Option.map (fun rest => page :: rest) (issuePageLoop feed fuel (page + 1))
      else some [page]

/-- An observable action of the orchestrator, as recorded by the per-issue
body: a parent or child record handed to writeDiskJSON with a version
(0 = the zero time.Time of the reclean pass), or a call of
Issues.ListComments for a page of a parent's comments. -/
inductive SyncAction where
  | writeParent (num : Nat) (version : Nat)
  | writeChild (id : Nat) (version : Nat)
  | listChildren (page : Nat)
  deriving DecidableEq, Repr

/-- updateComments(issueNum) of func main, abstracted over the remote:
remote page = (comments of that page, res.NextPage with 0 = no next page).
Each fetched comment is cleaned and handed to writeDiskJSON with its own
UpdatedAt; then the loop follows res.NextPage until it is 0.  Fuelled; the
Go loop runs as long as the remote keeps producing next pages. -/
def updateComments (remote : Nat → List IssueComment × Nat) :
    Nat → Nat → Option (List SyncAction)
  | 0, _ => none
  | Nat.succ fuel, page =>
      let pr := remote page
      let acts := SyncAction.listChildren page ::
        pr.1.map (fun c => SyncAction.writeChild c.id c.updatedAt)
      if pr.2 = 0 then some acts
      else Option.map (fun rest => acts ++ rest) (updateComments remote fuel pr.2)

/-- The actions of the reclean block of the ForeachIssue callback (source
lines 129-147): rewrite the issue with the zero version if cleanIssue
reports a change, then walk the stored comments and rewrite each one with
the zero version if cleanComment reports a change. -/
def recleanActs (is : Issue) (storedComments : List IssueComment) :
    List SyncAction :=
  (if (cleanIssue is).1 then [SyncAction.writeParent is.number 0] else [])
    ++ storedComments.flatMap
        (fun c => if (cleanComment c).1 then [SyncAction.writeChild c.id 0] else [])

/-- The ForeachIssue callback of func main, as the list of actions it takes
for one stored issue.  A nil Comments pointer returns immediately.  With
reclean set, the issue is re-cleaned and rewritten with the zero version if
cleanIssue reports a change, then every stored comment likewise.  Then the
declared comment count is compared with NumComments: equal counts return
with no comment paging; unequal counts run updateComments from page 1. -/
def issueBody (reclean : Bool) (fuel : Nat)
    (remote : Nat → List IssueComment × Nat) (is : Issue)
    (storedComments : List IssueComment) (onDisk : Nat) :
    Option (List SyncAction) :=
  match is.comments with
  | none => some []
  | some numDeclared =>
      let pre : List SyncAction :=
        if reclean then recleanActs is storedComments else []
      if onDisk = numDeclared then some pre
      else Option.map (fun acts => pre ++ acts) (updateComments remote fuel 1)

/-- The page argument of a listChildren action. -/
def SyncAction.listedPage : SyncAction → Option Nat
  | SyncAction.listChildren p => some p
  | _ => none

/-- The (identity, version) pair of a writeChild action. -/
def SyncAction.childWritten : SyncAction → Option (Nat × Nat)
  | SyncAction.writeChild i v => some (i, v)
  | _ => none

/- ===================== Claim theorems ===================== -/

/-- C1: for every writeDiskJSON call with a non-zero version: if the file
exists and its modification timestamp equals the version, nothing is
written, no timestamp is touched and the call reports no write; otherwise
every successful call wrote the serialization with its trailing newline,
ran MkdirAll (creating missing parent directories) and left the file's
modification timestamp exactly equal to the version; in particular, after
any successful non-zero-version write (wrote = true) the stored file's
timestamp equals the version passed in. -/
theorem C1_writeIfNewer_nonzero (o : IOOracle) (now : Nat) (fs : Option DiskFile)
    (modTime : Nat) (marshaled : List Nat) (hmt : modTime ≠ 0) :
    (∀ fi, fs = some fi → fi.modTime = modTime →
      writeDiskJSON o now fs modTime marshaled = ⟨Except.ok false, fs, false⟩)
    ∧ ((∀ fi, fs = some fi → fi.modTime ≠ modTime) →
      writeDiskJSON allOk now fs modTime marshaled =
        ⟨Except.ok true, some ⟨appendNewline marshaled, modTime⟩, true⟩)
    ∧ (∀ b, (writeDiskJSON o now fs modTime marshaled).res = Except.ok b → b = true →
      (writeDiskJSON o now fs modTime marshaled).fs =
          some ⟨appendNewline marshaled, modTime⟩
        ∧ (writeDiskJSON o now fs modTime marshaled).mkdirRan = true) := by
  refine ⟨?_, ?_, ?_⟩
  · intro fi hfs heq
    subst hfs
    simp [writeDiskJSON, hmt, heq]
  · intro hne
    cases fs with
    | none => simp [writeDiskJSON, hmt, writeDiskJSONBody, allOk]
    | some fi =>
        have hne' := hne fi rfl
        simp [writeDiskJSON, hmt, writeDiskJSONBody, allOk, hne']
  · intro b hres hb
    subst hb
    obtain ⟨m, k, w, op, wr, c⟩ := o
    cases fs with
    | none =>
        cases m <;> cases k <;> cases w <;> cases op <;> cases c <;>
          simp_all [writeDiskJSON, hmt, writeDiskJSONBody]
    | some fi =>
        by_cases hfi : fi.modTime = modTime
        · simp [writeDiskJSON, hmt, hfi] at hres
        · cases m <;> cases k <;> cases w <;> cases op <;> cases c <;>
            simp_all [writeDiskJSON, hmt, writeDiskJSONBody]

/-- Witness for C1 at concrete inputs: a file whose timestamp already equals
version 3 is left untouched with wrote = false, and a stale file is
rewritten with its timestamp set to the version. -/
theorem C1_witness :
    writeDiskJSON allOk 9 (some ⟨[65], 3⟩) 3 [66] =
        ⟨Except.ok false, some ⟨[65], 3⟩, false⟩
    ∧ writeDiskJSON allOk 9 (some ⟨[65], 1⟩) 3 [66] =
        ⟨Except.ok true, some ⟨[66, 10], 3⟩, true⟩ := by
  constructor
  · exact (C1_writeIfNewer_nonzero allOk 9 (some ⟨[65], 3⟩) 3 [66] (by decide)).1
      ⟨[65], 3⟩ rfl rfl
  · have h := (C1_writeIfNewer_nonzero allOk 9 (some ⟨[65], 1⟩) 3 [66] (by decide)).2.1
      (by intro fi hfi; injection hfi with hfi; subst hfi; decide)
    exact h.trans (by decide)

/-- C6: for every writeDiskJSON call with the zero version: the call fails
when the file does not exist, and whenever it returns without error the
file's content has been replaced by the new serialization while its
modification timestamp equals the timestamp it had before the write. -/
theorem C6_writeIfNewer_zero (o : IOOracle) (now : Nat) (fs : Option DiskFile)
    (marshaled : List Nat) :
    (fs = none →
      writeDiskJSON o now fs 0 marshaled = ⟨Except.error (), none, false⟩)
    ∧ (∀ fi b, fs = some fi →
      (writeDiskJSON o now fs 0 marshaled).res = Except.ok b →
      writeDiskJSON o now fs 0 marshaled =
        ⟨Except.ok true, some ⟨appendNewline marshaled, fi.modTime⟩, true⟩) := by
  constructor
  · intro h
    subst h
    simp [writeDiskJSON]
  · intro fi b hfs hres
    subst hfs
    obtain ⟨m, k, w, op, wr, c⟩ := o
    cases m <;> cases k <;> cases w <;> cases op <;> cases c <;>
      simp_all [writeDiskJSON, writeDiskJSONBody]

/-- Witness for C6 at concrete inputs: a missing file makes the
zero-version call fail, and rewriting an existing file keeps its prior
timestamp 5 while replacing its content. -/
theorem C6_witness :
    writeDiskJSON allOk 9 none 0 [66] = ⟨Except.error (), none, false⟩
    ∧ writeDiskJSON allOk 9 (some ⟨[65], 5⟩) 0 [66] =
        ⟨Except.ok true, some ⟨[66, 10], 5⟩, true⟩ := by
  constructor
  · exact (C6_writeIfNewer_zero allOk 9 none [66]).1 rfl
  · have h := (C6_writeIfNewer_zero allOk 9 (some ⟨[65], 5⟩) [66]).2
      ⟨[65], 5⟩ true rfl (by decide)
    exact h.trans (by decide)

/-- C10 counterexample: two erroring writeDiskJSON calls that do not leave
the prior content+timestamp pair untouched: os.Chtimes fails after a
successful WriteFile (file replaced, wall-clock timestamp 99), and
WriteFile itself fails after its O_TRUNC open succeeded with nothing
written (prior content destroyed, file left empty). -/
theorem C10_counterexample :
    ((writeDiskJSON ⟨true, true, true, true, 0, false⟩ 99 (some ⟨[65], 5⟩) 7 [66]).res =
        Except.error ()
      ∧ (writeDiskJSON ⟨true, true, true, true, 0, false⟩ 99 (some ⟨[65], 5⟩) 7 [66]).fs ≠
        some ⟨[65], 5⟩)
    ∧ ((writeDiskJSON ⟨true, true, false, true, 0, true⟩ 99 (some ⟨[65], 5⟩) 7 [66]).res =
        Except.error ()
      ∧ (writeDiskJSON ⟨true, true, false, true, 0, true⟩ 99 (some ⟨[65], 5⟩) 7 [66]).fs =
        some ⟨[], 99⟩
      ∧ (writeDiskJSON ⟨true, true, false, true, 0, true⟩ 99 (some ⟨[65], 5⟩) 7 [66]).fs ≠
        some ⟨[65], 5⟩) := by decide

/-- Helper for the C10 amendment: when the write path itself errors, either
the failure happened before the file was opened (marshal, MkdirAll, or the
O_TRUNC open) and the file is untouched, or the file now holds some prefix
of the new serialization stamped with the wall-clock write time (the empty
prefix for a bare truncation, a partial prefix for an interrupted write,
the full serialization when only Chtimes failed). -/
theorem writeDiskJSONBody_error_frame (o : IOOracle) (now : Nat)
    (fs : Option DiskFile) (modTime : Nat) (marshaled : List Nat)
    (h : (writeDiskJSONBody o now fs modTime marshaled).res = Except.error ()) :
    (writeDiskJSONBody o now fs modTime marshaled).fs = fs
    ∨ ∃ k, (writeDiskJSONBody o now fs modTime marshaled).fs =
        some ⟨(appendNewline marshaled).take k, now⟩ := by
  obtain ⟨m, k, w, op, wr, c⟩ := o
  cases m with
  | false => left; rfl
  | true =>
      cases k with
      | false => left; rfl
      | true =>
          cases w with
          | false =>
              cases op with
              | false => left; rfl
              | true => right; exact ⟨wr, rfl⟩
          | true =>
              cases c with
              | false =>
                  right
                  exact ⟨(appendNewline marshaled).length,
                    by simp [writeDiskJSONBody, List.take_length]⟩
              | true => simp [writeDiskJSONBody] at h

/-- C10 amended: record writes are not atomic: a writeDiskJSON call that
returns an error leaves the stored file untouched only when the failure
came before the file was opened for writing (stat in the zero-version
branch, marshal, MkdirAll, or the O_TRUNC open); otherwise the file has
already been replaced by some prefix of the new serialization - empty after
a bare truncation, partial after an interrupted write, complete when only
os.Chtimes failed - stamped with the wall-clock write time rather than the
version.  Only a fully successful call yields the new content+version
pair. -/
theorem C10_error_leaves_file (o : IOOracle) (now : Nat) (fs : Option DiskFile)
    (modTime : Nat) (marshaled : List Nat)
    (h : (writeDiskJSON o now fs modTime marshaled).res = Except.error ()) :
    (writeDiskJSON o now fs modTime marshaled).fs = fs
    ∨ ∃ k, (writeDiskJSON o now fs modTime marshaled).fs =
        some ⟨(appendNewline marshaled).take k, now⟩ := by
  by_cases hz : modTime = 0
  · cases fs with
    | none => left; simp [writeDiskJSON, hz]
    | some fi =>
        simp only [writeDiskJSON, if_pos hz] at h ⊢
        exact writeDiskJSONBody_error_frame o now (some fi) fi.modTime marshaled h
  · cases fs with
    | none =>
        simp only [writeDiskJSON, if_neg hz] at h ⊢
        exact writeDiskJSONBody_error_frame o now none modTime marshaled h
    | some fi =>
        by_cases hfi : fi.modTime = modTime
        · simp [writeDiskJSON, hz, hfi] at h
        · simp only [writeDiskJSON, if_neg hz, if_neg hfi] at h ⊢
          exact writeDiskJSONBody_error_frame o now (some fi) modTime marshaled h

/-- Witness for C10 amended at a concrete input: WriteFile fails after a
successful truncating open with one byte written, and the erroring call
indeed leaves a prefix of the new serialization under the wall-clock
time. -/
theorem C10_witness :
    (writeDiskJSON ⟨true, true, false, true, 1, true⟩ 9 (some ⟨[65], 5⟩) 7 [66]).fs =
        some ⟨[65], 5⟩
    ∨ ∃ k, (writeDiskJSON ⟨true, true, false, true, 1, true⟩ 9 (some ⟨[65], 5⟩) 7 [66]).fs =
        some ⟨(appendNewline [66]).take k, 9⟩ :=
  C10_error_leaves_file ⟨true, true, false, true, 1, true⟩ 9 (some ⟨[65], 5⟩) 7 [66]
    (by decide)

/-- C3: the Normalizer's verdict is wrong on the code: for a reaction
summary with total count 1 and a present zero-valued plusOne counter,
cleanReactionsPtr removes the counter (the output differs from the input)
yet reports cleaned = false, because cleanReactions never sets its cleaned
flag when it zeroes a counter. -/
theorem C3_cleanReactions_verdict_bug :
    cleanReactionsPtr (some ⟨some 1, none, some 0, none, none, none, none, none⟩) =
      (false, some ⟨some 1, none, none, none, none, none, none, none⟩)
    ∧ (some (⟨some 1, none, none, none, none, none, none, none⟩ : Reactions) ≠
        some (⟨some 1, none, some 0, none, none, none, none, none⟩ : Reactions)) := by
  decide

/-- Once a page with no writes is reached, the page loop stops there: if the
n pages starting at s each contain a write and page s + n contains none,
the loop started at page s with enough fuel fetches exactly pages
s, s+1, ..., s+n. -/
theorem issuePageLoop_drain (feed : Nat → List Bool) (n : Nat) :
    ∀ s fuel : Nat,
      (∀ i, s ≤ i → i < s + n → (feed i).any (fun b => b) = true) →
      (feed (s + n)).any (fun b => b) = false →
      n + 1 ≤ fuel →
      issuePageLoop feed fuel s = some (List.range' s (n + 1)) := by
  induction n with
  | zero =>
      intro s fuel hbusy hquiet hfuel
      obtain ⟨fuel, rfl⟩ : ∃ f, fuel = f + 1 := ⟨fuel - 1, by omega⟩
      rw [Nat.add_zero] at hquiet
      simp [issuePageLoop, hquiet, List.range']
  | succ n ih =>
      intro s fuel hbusy hquiet hfuel
      obtain ⟨fuel, rfl⟩ : ∃ f, fuel = f + 1 := ⟨fuel - 1, by omega⟩
      have hs : (feed s).any (fun b => b) = true := hbusy s le_rfl (by omega)
      have hrest := ih (s + 1) fuel
        (fun i h1 h2 => hbusy i (by omega) (by omega))
        (by rw [show s + 1 + n = s + (n + 1) by omega]; exact hquiet)
        (by omega)
      simp [issuePageLoop, hs, hrest, List.range'_succ]

/-- C2: the top-level sync requests every page with sort=updated,
direction=desc (recency descending) and proceeds past a page exactly when
some record of it resulted in a write; for a feed where pages 1..k each
contain at least one written record and every later page contains none, the
loop fetches exactly the pages 1..k+1 and never a page beyond k+1. -/
theorem C2_page_loop (feed : Nat → List Bool) (k fuel : Nat)
    (hfuel : k + 1 ≤ fuel)
    (hbusy : ∀ i, 1 ≤ i → i ≤ k → (feed i).any (fun b => b) = true)
    (hquiet : ∀ j, k < j → (feed j).any (fun b => b) = false) :
    issuePageLoop feed fuel 1 = some (List.range' 1 (k + 1))
    ∧ (∀ p, p ∈ List.range' 1 (k + 1) → 1 ≤ p ∧ p ≤ k + 1)
    ∧ (∀ p, (issueListOpts p).sort = "updated"
        ∧ (issueListOpts p).direction = "desc"
        ∧ (issueListOpts p).listOptions.perPage = 100) := by
  refine ⟨?_, ?_, ?_⟩
  · exact issuePageLoop_drain feed k 1 fuel
      (fun i h1 h2 => hbusy i h1 (by omega))
      (hquiet (1 + k) (by omega)) hfuel
  · intro p hp
    rw [List.mem_range'_1] at hp
    omega
  · intro p
    exact ⟨rfl, rfl, rfl⟩

/-- Witness for C2 at a concrete feed: pages 1 and 2 contain a write, pages
3 onward none, and the loop fetches exactly pages 1, 2, 3. -/
theorem C2_witness :
    issuePageLoop (fun p => if p ≤ 2 then [false, true] else [false]) 4 1 =
        some (List.range' 1 3)
    ∧ (∀ p, p ∈ List.range' 1 3 → 1 ≤ p ∧ p ≤ 3)
    ∧ (∀ p, (issueListOpts p).sort = "updated"
        ∧ (issueListOpts p).direction = "desc"
        ∧ (issueListOpts p).listOptions.perPage = 100) := by
  have h := C2_page_loop (fun p => if p ≤ 2 then [false, true] else [false]) 2 4
    (by omega)
    (by
      intro i h1 h2
      have : i ≤ 2 := h2
      simp [this])
    (by
      intro j hj
      have : ¬(j ≤ 2) := by omega
      simp [this])
  exact h

theorem insertAsc_length (x : Int) (l : List Int) :
    (insertAsc x l).length = l.length + 1 := by
  induction l with
  | nil => rfl
  | cons y ys ih => by_cases h : x ≤ y <;> simp [insertAsc, h, ih]

theorem sortAsc_length (l : List Int) : (sortAsc l).length = l.length := by
  induction l with
  | nil => rfl
  | cons x xs ih => simp [sortAsc, insertAsc_length, ih]

/-- On a listing whose entries all match the comment-*.json pattern, the
walk of ForeachIssueComment succeeds and yields one identity per entry. -/
theorem collectCommentIds_all_match (es : List CEntry)
    (h : es.all matchesCommentName = true) :
    ∃ l, collectCommentIds es = Except.ok l ∧ l.length = es.length := by
  induction es with
  | nil => exact ⟨[], rfl, rfl⟩
  | cons e es ih =>
      rw [List.all_cons, Bool.and_eq_true] at h
      obtain ⟨l, hl, hlen⟩ := ih h.2
      cases e with
      | dir name => simp [matchesCommentName] at h
      | file name =>
          have hm := h.1
          rw [matchesCommentName, Bool.and_eq_true] at hm
          obtain ⟨id, hid⟩ := Option.isSome_iff_exists.mp hm.2
          refine ⟨id :: l, ?_, by simp [hlen]⟩
          simp [collectCommentIds, hm.1, hid, hl, Except.map]

/-- C4 counterexample: with a single entry foo.txt in the comments
directory, NumComments reports 1 (it counts every directory entry name)
while ForeachIssueComment enumerates no comment at all, so the count does
not equal the number of enumerated entries for every directory content. -/
theorem C4_counterexample :
    numComments (some [CEntry.file "foo.txt"]) true = Except.ok 1
    ∧ foreachIssueCommentIds (some [CEntry.file "foo.txt"]) = Except.ok []
    ∧ (1 : Nat) ≠ List.length ([] : List Int) := by decide

/-- C4 amended: NumComments counts every entry of the comments directory,
so it equals the number of entries ForeachIssueComment enumerates whenever
every entry of the directory is a file matching the comment-*.json naming
with a numeric identity (and also when the directory is absent, where both
report zero); a non-matching entry breaks the equality, as the
counterexample shows. -/
theorem C4_count_matches_enumeration (es : List CEntry)
    (h : es.all matchesCommentName = true) :
    (∃ ids, foreachIssueCommentIds (some es) = Except.ok ids
      ∧ numComments (some es) true = Except.ok ids.length)
    ∧ foreachIssueCommentIds none = Except.ok []
    ∧ numComments none true = Except.ok 0 := by
  refine ⟨?_, rfl, rfl⟩
  obtain ⟨l, hl, hlen⟩ := collectCommentIds_all_match es h
  refine ⟨sortAsc l, ?_, ?_⟩
  · simp [foreachIssueCommentIds, hl, Except.map]
  · simp [numComments, sortAsc_length, hlen]

/-- Witness for C4 amended at a concrete listing of two matching comment
files. -/
theorem C4_witness :
    (∃ ids, foreachIssueCommentIds
        (some [CEntry.file "comment-12.json", CEntry.file "comment-3.json"]) =
          Except.ok ids
      ∧ numComments
          (some [CEntry.file "comment-12.json", CEntry.file "comment-3.json"]) true =
          Except.ok ids.length)
    ∧ foreachIssueCommentIds none = Except.ok []
    ∧ numComments none true = Except.ok 0 :=
  C4_count_matches_enumeration
    [CEntry.file "comment-12.json", CEntry.file "comment-3.json"] (by decide)

/-- C9 counterexample: a file notes.txt inside the comments directory does
not make ForeachIssueComment fail; it is silently skipped (here the walk
still succeeds and still enumerates the remaining well-formed comment), so
not every non-matching file name is a fatal error. -/
theorem C9_counterexample :
    collectCommentIds [CEntry.file "notes.txt"] = Except.ok []
    ∧ foreachIssueCommentIds
        (some [CEntry.file "comment-3.json", CEntry.file "notes.txt"]) =
        Except.ok [3] := by decide

/-- C9 amended: inside the comments directory, a file whose name carries
the comment- prefix and .json suffix but whose middle does not parse as a
number is a fatal error, and so is any subdirectory; a file without that
prefix-suffix pair is silently skipped, not an error. -/
theorem C9_nonmatching_entries (name : String) (rest : List CEntry) :
    (("comment-".data.isPrefixOf name.data && ".json".data.isSuffixOf name.data) = true →
      commentIdOfName name = none →
      collectCommentIds (CEntry.file name :: rest) =
        Except.error ("unexpected non-numeric json file " ++ name))
    ∧ (("comment-".data.isPrefixOf name.data && ".json".data.isSuffixOf name.data) = false →
      collectCommentIds (CEntry.file name :: rest) = collectCommentIds rest)
    ∧ (∀ dname drest, collectCommentIds (CEntry.dir dname :: drest) =
        Except.error ("unexpected directory: " ++ dname)) := by
  refine ⟨?_, ?_, ?_⟩
  · intro h1 h2
    simp [collectCommentIds, h1, h2]
  · intro h1
    simp [collectCommentIds, h1]
  · intro dname drest
    rfl

/-- Witness for C9 amended at concrete names: comment-x.json is a fatal
parse error, notes2.txt is skipped, and a subdirectory is a fatal error. -/
theorem C9_witness :
    collectCommentIds [CEntry.file "comment-x.json"] =
        Except.error "unexpected non-numeric json file comment-x.json"
    ∧ collectCommentIds [CEntry.file "notes2.txt"] = collectCommentIds []
    ∧ collectCommentIds [CEntry.dir "sub"] =
        Except.error "unexpected directory: sub" := by
  refine ⟨?_, ?_, ?_⟩
  · exact ((C9_nonmatching_entries "comment-x.json" []).1 (by decide) (by decide)).trans
      (by decide)
  · exact (C9_nonmatching_entries "notes2.txt" []).2.1 (by decide)
  · exact ((C9_nonmatching_entries "x" []).2.2 "sub" []).trans (by decide)

/-- C8 counterexample: an issues tree whose shard 042 holds the issue file
42.json and the directory 42.comments (a directory deeper than the shard
depth, containing a comment file) is walked by ForeachIssue without any
error: the deep directory is pruned and the issue is still enumerated. -/
theorem C8_counterexample :
    walkIssuesList 10 ""
        [FsNode.dir "042"
          [FsNode.dir "42.comments" [FsNode.file "comment-1.json"],
           FsNode.file "42.json"]] =
      some (Except.ok [42])
    ∧ ((walkIssuesList 10 ""
        [FsNode.dir "042"
          [FsNode.dir "42.comments" [FsNode.file "comment-1.json"],
           FsNode.file "42.json"]]).getD (Except.error "")).isOk = true := by
  decide

/-- C8 amended: a directory whose path relative to the issues directory is
longer than the 3-character shard depth is answered with filepath.SkipDir:
the walk prunes it, contributes nothing from it, and reports no error,
whatever that directory contains. -/
theorem C8_deep_directory_pruned (fuel : Nat) (pre name : String)
    (children rest : List FsNode) (h : 3 < (pre ++ name).length) :
    walkIssuesList (fuel + 1) pre (FsNode.dir name children :: rest) =
      walkIssuesList fuel pre rest := by
  simp only [walkIssuesList]
  rw [if_pos h]

/-- Witness for C8 amended at a concrete tree: a deep directory holding a
would-be issue file is pruned and the walk equals the walk of the rest. -/
theorem C8_witness :
    walkIssuesList 4 "" [FsNode.dir "abcd" [FsNode.file "9.json"]] =
      walkIssuesList 3 "" [] :=
  C8_deep_directory_pruned 3 "" "abcd" [FsNode.file "9.json"] [] (by decide)

theorem filterMap_listedPage_writeChildren (cs : List IssueComment) :
    (cs.map (fun c => SyncAction.writeChild c.id c.updatedAt)).filterMap
      SyncAction.listedPage = [] := by
  induction cs with
  | nil => rfl
  | cons c cs ih =>
      rw [List.map_cons,
        List.filterMap_cons_none
          (show SyncAction.listedPage (SyncAction.writeChild c.id c.updatedAt) = none
            from rfl),
        ih]

theorem filterMap_listedPage_writeChildren_append (cs : List IssueComment)
    (rest : List SyncAction) :
    (cs.map (fun c => SyncAction.writeChild c.id c.updatedAt) ++ rest).filterMap
      SyncAction.listedPage = rest.filterMap SyncAction.listedPage := by
  induction cs with
  | nil => rfl
  | cons c cs ih =>
      rw [List.map_cons, List.cons_append,
        List.filterMap_cons_none
          (show SyncAction.listedPage (SyncAction.writeChild c.id c.updatedAt) = none
            from rfl),
        ih]

theorem filterMap_childWritten_writeChildren (cs : List IssueComment) :
    (cs.map (fun c => SyncAction.writeChild c.id c.updatedAt)).filterMap
      SyncAction.childWritten = cs.map (fun c => (c.id, c.updatedAt)) := by
  induction cs with
  | nil => rfl
  | cons c cs ih =>
      rw [List.map_cons,
        List.filterMap_cons_some
          (show SyncAction.childWritten (SyncAction.writeChild c.id c.updatedAt) =
            some (c.id, c.updatedAt) from rfl),
        ih, List.map_cons]

theorem filterMap_childWritten_writeChildren_append (cs : List IssueComment)
    (rest : List SyncAction) :
    (cs.map (fun c => SyncAction.writeChild c.id c.updatedAt) ++ rest).filterMap
      SyncAction.childWritten =
      cs.map (fun c => (c.id, c.updatedAt)) ++ rest.filterMap SyncAction.childWritten := by
  induction cs with
  | nil => rfl
  | cons c cs ih =>
      rw [List.map_cons, List.cons_append,
        List.filterMap_cons_some
          (show SyncAction.childWritten (SyncAction.writeChild c.id c.updatedAt) =
            some (c.id, c.updatedAt) from rfl),
        ih, List.map_cons, List.cons_append]

/-- The reclean block never lists comment pages: its actions are only
zero-version writes. -/
theorem recleanActs_no_listing (is : Issue) (cs : List IssueComment) (p : Nat) :
    SyncAction.listChildren p ∉ recleanActs is cs := by
  intro hmem
  rw [recleanActs] at hmem
  rcases List.mem_append.mp hmem with h | h
  · split at h <;> simp_all
  · rcases List.mem_flatMap.mp h with ⟨c, _, hc⟩
    split at hc <;> simp_all

/-- Characterization of a successful updateComments run started at page p:
the listed pages start at p, each next listed page is the NextPage the
remote returned for the previous one, the last listed page is the one whose
NextPage is 0, and the children written are exactly the fetched children,
each with its own declared version. -/
theorem updateComments_chain (remote : Nat → List IssueComment × Nat)
    (fuel : Nat) :
    ∀ (p : Nat) (acts : List SyncAction),
      updateComments remote fuel p = some acts →
      (acts.filterMap SyncAction.listedPage).head? = some p
      ∧ List.Chain' (fun q r => (remote q).2 = r)
          (acts.filterMap SyncAction.listedPage)
      ∧ (∃ q, (acts.filterMap SyncAction.listedPage).getLast? = some q
          ∧ (remote q).2 = 0)
      ∧ acts.filterMap SyncAction.childWritten =
          (acts.filterMap SyncAction.listedPage).flatMap
            (fun q => (remote q).1.map (fun c => (c.id, c.updatedAt))) := by
  induction fuel with
  | zero =>
      intro p acts h
      simp [updateComments] at h
  | succ fuel ih =>
      intro p acts h
      simp only [updateComments] at h
      by_cases hnext : (remote p).2 = 0
      · rw [if_pos hnext] at h
        have hacts : acts = SyncAction.listChildren p ::
            (remote p).1.map (fun c => SyncAction.writeChild c.id c.updatedAt) := by
          injection h with h
          exact h.symm
        subst hacts
        have hP : List.filterMap SyncAction.listedPage
            (SyncAction.listChildren p ::
              (remote p).1.map (fun c => SyncAction.writeChild c.id c.updatedAt)) = [p] := by
          rw [List.filterMap_cons_some
            (show SyncAction.listedPage (SyncAction.listChildren p) = some p from rfl),
            filterMap_listedPage_writeChildren]
        have hW : List.filterMap SyncAction.childWritten
            (SyncAction.listChildren p ::
              (remote p).1.map (fun c => SyncAction.writeChild c.id c.updatedAt)) =
            (remote p).1.map (fun c => (c.id, c.updatedAt)) := by
          rw [List.filterMap_cons_none
            (show SyncAction.childWritten (SyncAction.listChildren p) = none from rfl),
            filterMap_childWritten_writeChildren]
        rw [hP, hW]
        exact ⟨rfl, List.chain'_singleton p, ⟨p, rfl, hnext⟩, by
          rw [List.flatMap_cons, List.flatMap_nil, List.append_nil]⟩
      · rw [if_neg hnext] at h
        cases heq : updateComments remote fuel (remote p).2 with
        | none => rw [heq] at h; simp at h
        | some rest =>
            rw [heq] at h
            have hacts : acts = (SyncAction.listChildren p ::
                (remote p).1.map (fun c => SyncAction.writeChild c.id c.updatedAt))
                  ++ rest := by
              injection h with h
              exact h.symm
            subst hacts
            obtain ⟨ihHead, ihChain, ⟨q, ihLast, ihZero⟩, ihWrites⟩ :=
              ih (remote p).2 rest heq
            have hP : List.filterMap SyncAction.listedPage
                ((SyncAction.listChildren p ::
                  (remote p).1.map (fun c => SyncAction.writeChild c.id c.updatedAt))
                    ++ rest) =
                p :: rest.filterMap SyncAction.listedPage := by
              rw [List.cons_append,
                List.filterMap_cons_some
                  (show SyncAction.listedPage (SyncAction.listChildren p) = some p from rfl),
                filterMap_listedPage_writeChildren_append]
            have hW : List.filterMap SyncAction.childWritten
                ((SyncAction.listChildren p ::
                  (remote p).1.map (fun c => SyncAction.writeChild c.id c.updatedAt))
                    ++ rest) =
                (remote p).1.map (fun c => (c.id, c.updatedAt))
                  ++ rest.filterMap SyncAction.childWritten := by
              rw [List.cons_append,
                List.filterMap_cons_none
                  (show SyncAction.childWritten (SyncAction.listChildren p) = none from rfl),
                filterMap_childWritten_writeChildren_append]
            rw [hP, hW]
            refine ⟨rfl, ?_, ?_, ?_⟩
            · refine List.chain'_cons'.mpr ⟨?_, ihChain⟩
              intro b hb
              rw [ihHead] at hb
              simp only [Option.mem_def, Option.some.injEq] at hb
              exact hb
            · refine ⟨q, ?_, ihZero⟩
              cases hpg : rest.filterMap SyncAction.listedPage with
              | nil => rw [hpg] at ihHead; simp at ihHead
              | cons x xs =>
                  rw [hpg] at ihLast
                  rw [List.getLast?_cons_cons]
                  exact ihLast
            · rw [List.flatMap_cons, ihWrites]

/-- C5: for a stored parent whose declared child-count field is non-absent:
equal on-disk and declared counts produce no listChildren call at all;
unequal counts make the body run exactly updateComments from page 1, whose
successful runs page through the remote children endpoint following the
remote's own NextPage cursor (first listed page 1, each following listed
page the NextPage of the previous one, stopping at the page whose NextPage
is 0) and write each fetched child with that child's own declared
version. -/
theorem C5_children_reconciliation (reclean : Bool) (fuel : Nat)
    (remote : Nat → List IssueComment × Nat) (is : Issue)
    (storedComments : List IssueComment) (onDisk numDeclared : Nat)
    (hdecl : is.comments = some numDeclared) :
    (onDisk = numDeclared →
      ∀ acts, issueBody reclean fuel remote is storedComments onDisk = some acts →
        ∀ p, SyncAction.listChildren p ∉ acts)
    ∧ (onDisk ≠ numDeclared →
      issueBody false fuel remote is storedComments onDisk =
        updateComments remote fuel 1)
    ∧ (∀ acts, updateComments remote fuel 1 = some acts →
      (acts.filterMap SyncAction.listedPage).head? = some 1
      ∧ List.Chain' (fun q r => (remote q).2 = r)
          (acts.filterMap SyncAction.listedPage)
      ∧ (∃ q, (acts.filterMap SyncAction.listedPage).getLast? = some q
          ∧ (remote q).2 = 0)
      ∧ acts.filterMap SyncAction.childWritten =
          (acts.filterMap SyncAction.listedPage).flatMap
            (fun q => (remote q).1.map (fun c => (c.id, c.updatedAt)))) := by
  refine ⟨?_, ?_, ?_⟩
  · intro heq acts hacts p
    simp only [issueBody, hdecl] at hacts
    rw [if_pos heq] at hacts
    have hval : acts = if reclean then recleanActs is storedComments else [] := by
      injection hacts with h
      exact h.symm
    subst hval
    cases reclean with
    | false => simp
    | true => simpa using recleanActs_no_listing is storedComments p
  · intro hne
    simp only [issueBody, hdecl]
    rw [if_neg hne]
    cases updateComments remote fuel 1 with
    | none => rfl
    | some rest => simp
  · intro acts h
    exact updateComments_chain remote fuel 1 acts h

/-- Witness for C5 at a concrete parent declaring 2 comments: with 2
comments on disk there is no listing call, with 1 the body runs
updateComments, and a successful run lists page 1 first. -/
theorem C5_witness :
    SyncAction.listChildren 1 ∉ ([] : List SyncAction)
    ∧ issueBody false 3
        (fun p => if p = 1 then ([⟨7, none, none, none, none, none, 4⟩], 2) else ([], 0))
        ⟨1, none, none, none, [], none, none, [], none, some 2, 5⟩ [] 1 =
      updateComments
        (fun p => if p = 1 then ([⟨7, none, none, none, none, none, 4⟩], 2) else ([], 0))
        3 1
    ∧ (([SyncAction.listChildren 1, SyncAction.writeChild 7 4,
        SyncAction.listChildren 2].filterMap SyncAction.listedPage).head? = some 1) := by
  refine ⟨?_, ?_, ?_⟩
  · exact (C5_children_reconciliation false 3
      (fun p => if p = 1 then ([⟨7, none, none, none, none, none, 4⟩], 2) else ([], 0))
      ⟨1, none, none, none, [], none, none, [], none, some 2, 5⟩ [] 2 2 rfl).1
      rfl [] (by decide) 1
  · exact (C5_children_reconciliation false 3
      (fun p => if p = 1 then ([⟨7, none, none, none, none, none, 4⟩], 2) else ([], 0))
      ⟨1, none, none, none, [], none, none, [], none, some 2, 5⟩ [] 1 2 rfl).2.1
      (by decide)
  · exact ((C5_children_reconciliation false 3
      (fun p => if p = 1 then ([⟨7, none, none, none, none, none, 4⟩], 2) else ([], 0))
      ⟨1, none, none, none, [], none, none, [], none, some 2, 5⟩ [] 1 2 rfl).2.2
      [SyncAction.listChildren 1, SyncAction.writeChild 7 4, SyncAction.listChildren 2]
      (by decide)).1

/-- Membership facts about the reclean block: the parent is rewritten with
the zero version exactly if cleanIssue reports a change, and each stored
comment whose cleanComment reports a change is rewritten with the zero
version. -/
theorem recleanActs_mem (is : Issue) (cs : List IssueComment) :
    ((cleanIssue is).1 = true →
      SyncAction.writeParent is.number 0 ∈ recleanActs is cs)
    ∧ (∀ c ∈ cs, (cleanComment c).1 = true →
      SyncAction.writeChild c.id 0 ∈ recleanActs is cs) := by
  constructor
  · intro h
    rw [recleanActs]
    apply List.mem_append_left
    rw [if_pos h]
    exact List.mem_singleton_self _
  · intro c hc h
    rw [recleanActs]
    apply List.mem_append_right
    rw [List.mem_flatMap]
    refine ⟨c, hc, ?_⟩
    rw [if_pos h]
    exact List.mem_singleton_self _

/-- C7 counterexample: a stored parent whose Comments field is absent is
returned from the callback before the reclean block runs: although
cleanIssue reports that normalizing it would change it, the body in reclean
mode performs no action at all, so not every stored parent is re-normalized
(the callback guard on the declared child-count comes first). -/
theorem C7_counterexample :
    (cleanIssue ⟨7, some "u", none, none, [], none, none, [], none, none, 3⟩).1 = true
    ∧ issueBody true 5 (fun _ => ([], 0))
        ⟨7, some "u", none, none, [], none, none, [], none, none, 3⟩ [] 0 =
      some [] := by decide

/-- C7 amended: in reclean mode, every stored parent whose declared
child-count field is non-absent is re-normalized before reconciliation: the
action list starts with the reclean block, which rewrites the parent with
the zero version when cleanIssue reports a change, rewrites every stored
comment whose cleanComment reports a change with the zero version, and
contains no comment-listing call; parents with an absent child-count are
skipped entirely. -/
theorem C7_reclean_on_counted (fuel : Nat)
    (remote : Nat → List IssueComment × Nat) (is : Issue)
    (cs : List IssueComment) (onDisk n : Nat)
    (hdecl : is.comments = some n) (acts : List SyncAction)
    (hacts : issueBody true fuel remote is cs onDisk = some acts) :
    ∃ post, acts = recleanActs is cs ++ post
      ∧ ((cleanIssue is).1 = true →
          SyncAction.writeParent is.number 0 ∈ recleanActs is cs)
      ∧ (∀ c ∈ cs, (cleanComment c).1 = true →
          SyncAction.writeChild c.id 0 ∈ recleanActs is cs)
      ∧ (∀ p, SyncAction.listChildren p ∉ recleanActs is cs) := by
  simp only [issueBody, hdecl] at hacts
  by_cases hd : onDisk = n
  · rw [if_pos hd] at hacts
    have hval : acts = recleanActs is cs := by
      injection hacts with h
      exact h.symm
    exact ⟨[], by rw [hval, List.append_nil], (recleanActs_mem is cs).1,
      (recleanActs_mem is cs).2, recleanActs_no_listing is cs⟩
  · rw [if_neg hd] at hacts
    cases heq : updateComments remote fuel 1 with
    | none => rw [heq] at hacts; simp at hacts
    | some rest =>
        rw [heq] at hacts
        have hval : acts = recleanActs is cs ++ rest := by
          injection hacts with h
          exact h.symm
        exact ⟨rest, hval, (recleanActs_mem is cs).1,
          (recleanActs_mem is cs).2, recleanActs_no_listing is cs⟩

/-- Witness for C7 amended at a concrete parent with declared count 0 and a
dirty self URL: its reclean block is exactly the zero-version parent
rewrite. -/
theorem C7_witness :
    ∃ post, [SyncAction.writeParent 7 0] =
        recleanActs ⟨7, some "u", none, none, [], none, none, [], none, some 0, 3⟩ [] ++ post
      ∧ ((cleanIssue ⟨7, some "u", none, none, [], none, none, [], none, some 0, 3⟩).1 = true →
          SyncAction.writeParent 7 0 ∈
            recleanActs ⟨7, some "u", none, none, [], none, none, [], none, some 0, 3⟩ [])
      ∧ (∀ c ∈ ([] : List IssueComment), (cleanComment c).1 = true →
          SyncAction.writeChild c.id 0 ∈
            recleanActs ⟨7, some "u", none, none, [], none, none, [], none, some 0, 3⟩ [])
      ∧ (∀ p, SyncAction.listChildren p ∉
          recleanActs ⟨7, some "u", none, none, [], none, none, [], none, some 0, 3⟩ []) :=
  C7_reclean_on_counted 1 (fun _ => ([], 0))
    ⟨7, some "u", none, none, [], none, none, [], none, some 0, 3⟩ [] 0 0 rfl
    [SyncAction.writeParent 7 0] (by decide)

/- ===================== Sanity checks ===================== -/

example : writeDiskJSON allOk 99 (some ⟨[65], 5⟩) 5 [66] =
    ⟨Except.ok false, some ⟨[65], 5⟩, false⟩ := by decide

example : writeDiskJSON allOk 99 (some ⟨[65], 5⟩) 7 [66] =
    ⟨Except.ok true, some ⟨[66, 10], 7⟩, true⟩ := by decide

example : writeDiskJSON allOk 99 none 0 [66] =
    ⟨Except.error (), none, false⟩ := by decide

example : writeDiskJSON allOk 99 (some ⟨[65], 5⟩) 0 [66] =
    ⟨Except.ok true, some ⟨[66, 10], 5⟩, true⟩ := by decide

example : writeDiskJSON ⟨true, true, true, true, 0, false⟩ 99 (some ⟨[65], 5⟩) 7 [66] =
    ⟨Except.error (), some ⟨[66, 10], 99⟩, true⟩ := by decide

example : writeDiskJSON ⟨true, true, false, true, 1, true⟩ 99 (some ⟨[65], 5⟩) 7 [66] =
    ⟨Except.error (), some ⟨[66], 99⟩, true⟩ := by decide

example : cleanReactionsPtr (some ⟨some 1, none, some 0, none, none, none, none, none⟩) =
    (false, some ⟨some 1, none, none, none, none, none, none, none⟩) := by decide

example : cleanReactionsPtr (some ⟨some 0, some "u", some 3, none, none, none, none, none⟩) =
    (true, none) := by decide

example : cleanReactionsPtr (some ⟨some 2, some "u", some 3, none, none, none, none, none⟩) =
    (true, some ⟨some 2, none, some 3, none, none, none, none, none⟩) := by decide

example : collectCommentIds [CEntry.file "comment-12.json", CEntry.file "comment-3.json"] =
    Except.ok [12, 3] := by decide

example : foreachIssueCommentIds (some [CEntry.file "comment-12.json", CEntry.file "comment-3.json"]) =
    Except.ok [3, 12] := by decide

example : collectCommentIds [CEntry.file "foo.txt"] = Except.ok [] := by decide

example : (collectCommentIds [CEntry.file "comment-x.json"]).isOk = false := by decide

example : (collectCommentIds [CEntry.dir "sub"]).isOk = false := by decide

example : walkIssuesList 10 ""
    [FsNode.dir "042" [FsNode.dir "42.comments" [FsNode.file "comment-1.json"],
                       FsNode.file "42.json"]] =
    some (Except.ok [42]) := by decide

example : walkIssuesList 10 "" [FsNode.dir "042" [FsNode.file "bogus.json"]] =
    some (Except.error "unexpected non-numeric json file 042/bogus.json") := by decide

example : issuePageLoop (fun p => if p ≤ 2 then [false, true] else [false]) 9 1 =
    some [1, 2, 3] := by decide

example : issueBody false 9 (fun _ => ([], 0)) ⟨1, none, none, none, [], none, none, [], none, some 2, 5⟩ [] 2 =
    some [] := by decide

example : issueBody false 9
      (fun p => if p = 1 then ([⟨7, none, none, none, none, none, 4⟩], 2) else ([], 0))
      ⟨1, none, none, none, [], none, none, [], none, some 2, 5⟩ [] 1 =
    some [SyncAction.listChildren 1, SyncAction.writeChild 7 4, SyncAction.listChildren 2] := by decide
